import Mathlib

/-!
Verification of the streaming tool-invocation protocol handler of the
grizzly inspector (`src/client/src/components/LLMTab.tsx`) and of the
tool-metadata checks hook (`useToolChecks`).

The stream loop of `manageConversation` is embedded as a step function
`processChunk` over an explicit `StreamState`; the approval-gate handlers
(`handleApproveToolCall`, `handleCancelToolCall`) and the tool-result
effect are embedded over an `AppState`.  `JSON.parse` and
`JSON.stringify` are JavaScript builtins external to the code under
study; they enter the embedding as function parameters
(`parse : String → Option Json`, `stringify : ResultContentPart → String`).
-/

namespace Grizzly

/-- JSON values, as reconstructed from provider fragments. -/
inductive Json where
  | null
  | bool (b : Bool)
  | num (n : Int)
  | str (s : String)
  | arr (elems : List Json)
  | obj (fields : List (String × Json))
  deriving Repr

mutual

/-- Boolean equality on JSON values. -/
def Json.beq : Json → Json → Bool
  | .null, .null => true
  | .bool a, .bool b => a == b
  | .num a, .num b => a == b
  | .str a, .str b => a == b
  | .arr xs, .arr ys => Json.beqElems xs ys
  | .obj xs, .obj ys => Json.beqFields xs ys
  | _, _ => false

/-- Boolean equality on JSON arrays. -/
def Json.beqElems : List Json → List Json → Bool
  | [], [] => true
  | x :: xs, y :: ys => Json.beq x y && Json.beqElems xs ys
  | _, _ => false

/-- Boolean equality on JSON object field lists. -/
def Json.beqFields : List (String × Json) → List (String × Json) → Bool
  | [], [] => true
  | (k, v) :: xs, (l, w) :: ys => k == l && Json.beq v w && Json.beqFields xs ys
  | _, _ => false

end

mutual

theorem Json.beq_iff : ∀ a b : Json, Json.beq a b = true ↔ a = b
  | .null, .null => by simp [Json.beq]
  | .bool a, .bool b => by simp [Json.beq]
  | .num a, .num b => by simp [Json.beq]
  | .str a, .str b => by simp [Json.beq]
  | .arr xs, .arr ys => by
      simp only [Json.beq, Json.beqElems_iff xs ys, Json.arr.injEq]
  | .obj xs, .obj ys => by
      simp only [Json.beq, Json.beqFields_iff xs ys, Json.obj.injEq]
  | .null, .bool _ | .null, .num _ | .null, .str _ | .null, .arr _ | .null, .obj _
  | .bool _, .null | .bool _, .num _ | .bool _, .str _ | .bool _, .arr _ | .bool _, .obj _
  | .num _, .null | .num _, .bool _ | .num _, .str _ | .num _, .arr _ | .num _, .obj _
  | .str _, .null | .str _, .bool _ | .str _, .num _ | .str _, .arr _ | .str _, .obj _
  | .arr _, .null | .arr _, .bool _ | .arr _, .num _ | .arr _, .str _ | .arr _, .obj _
  | .obj _, .null | .obj _, .bool _ | .obj _, .num _ | .obj _, .str _ | .obj _, .arr _ => by
      simp [Json.beq]

theorem Json.beqElems_iff : ∀ xs ys : List Json, Json.beqElems xs ys = true ↔ xs = ys
  | [], [] => by simp [Json.beqElems]
  | x :: xs, y :: ys => by
      simp only [Json.beqElems, Bool.and_eq_true, Json.beq_iff x y,
        Json.beqElems_iff xs ys, List.cons.injEq]
  | [], _ :: _ => by simp [Json.beqElems]
  | _ :: _, [] => by simp [Json.beqElems]

theorem Json.beqFields_iff :
    ∀ xs ys : List (String × Json), Json.beqFields xs ys = true ↔ xs = ys
  | [], [] => by simp [Json.beqFields]
  | (k, v) :: xs, (l, w) :: ys => by
      simp only [Json.beqFields, Bool.and_eq_true, Json.beq_iff v w,
        Json.beqFields_iff xs ys, List.cons.injEq, beq_iff_eq, Prod.mk.injEq]
  | [], _ :: _ => by simp [Json.beqFields]
  | _ :: _, [] => by simp [Json.beqFields]

end

instance : DecidableEq Json := fun a b =>
  decidable_of_iff (Json.beq a b = true) (Json.beq_iff a b)

/-- The empty JSON object `{}` assigned to a call whose argument buffer
fails to parse. -/
def emptyObj : Json := Json.obj []

/-- Tool annotations (`ToolAnnotationsSchema` of the MCP SDK): optional
human-readable title and behaviour hints. -/
structure ToolAnnotations where
  title : Option String := none
  readOnlyHint : Option Bool := none
  destructiveHint : Option Bool := none
  deriving Repr, DecidableEq

/-- A catalog tool: `name` is the join key used by the stream handler;
`description` and `annotations` are optional and feed the metadata checks. -/
structure Tool where
  name : String
  description : Option String := none
  annotations : Option ToolAnnotations := none
  deriving Repr, DecidableEq

/-- One conversation message (`interface Message` of `LLMTab.tsx`):
`isToolResult` is absent (false) unless set by the tool-result effect. -/
structure Message where
  role : String
  content : String
  isToolResult : Bool := false
  deriving Repr, DecidableEq

/-- The `delta` payload of a stream chunk. -/
structure Delta where
  type : String
  text : Option String := none
  partial_json : Option String := none
  deriving Repr, DecidableEq

/-- The `content_block` payload of a `content_block_start` chunk. -/
structure ContentBlock where
  type : String
  name : String
  id : String
  deriving Repr, DecidableEq

/-- A raw provider stream chunk (`interface AnthropicStreamChunk`). -/
structure AnthropicStreamChunk where
  type : String
  delta : Option Delta := none
  content_block : Option ContentBlock := none
  deriving Repr, DecidableEq

/-- The tool-call record built by the stream loop (`currentToolCall`) and
handed to the approval gate (`pendingToolCall`). -/
structure ToolCall where
  toolName : String
  toolId : String
  args : Json
  tool : Option Tool
  messageIdx : Nat
  deriving Repr, DecidableEq

/-- `chunk.delta?.type` -/
def deltaType (c : AnthropicStreamChunk) : Option String := c.delta.map (·.type)

/-- `chunk.content_block?.type` -/
def contentBlockType (c : AnthropicStreamChunk) : Option String :=
  c.content_block.map (·.type)

/-- `newMessages[newMessages.length - 1] = m` : replace the last element;
on an empty array the assignment creates no element. -/
def replaceLast (ms : List Message) (m : Message) : List Message :=
  match ms with
  | [] => []
  | _ :: _ => ms.dropLast ++ [m]

/-- `tools.find((t) => t.name === contentBlock.name) || null` -/
def findTool (tools : List Tool) (name : String) : Option Tool :=
  tools.find? (fun t => t.name = name)

/-- The mutable state threaded through the `for await` loop of
`manageConversation`, together with the two React states it writes
(`pendingToolCall`, `toolCallArgs`). -/
structure StreamState where
  assistantMessage : String
  messages : List Message
  currentToolCall : Option ToolCall
  toolInputJsonStringAccumulator : String
  pendingToolCall : Option ToolCall
  toolCallArgs : Json
  deriving Repr, DecidableEq

/-- One iteration of the `for await (const chunk of stream)` loop of
`manageConversation`.  `parse` stands for `JSON.parse` (`some` on success,
`none` when it throws); `baseLen` is `messages.length` captured by the
closure when the handler was created. -/
def processChunk (tools : List Tool) (parse : String → Option Json) (baseLen : Nat)
    (s : StreamState) (chunk : AnthropicStreamChunk) : StreamState :=
  if chunk.type = "content_block_delta" ∧ deltaType chunk = some "text_delta" then
    let newText := s.assistantMessage ++ ((chunk.delta.bind (·.text)).getD "")
    { s with assistantMessage := newText,
             messages := replaceLast s.messages ({ role := "assistant", content := newText }) }
  else if chunk.type = "content_block_start" ∧ contentBlockType chunk = some "tool_use" then
    match chunk.content_block with
    | some cb =>
      let tc : ToolCall :=
        { toolName := cb.name, toolId := cb.id, args := emptyObj,
          tool := findTool tools cb.name, messageIdx := baseLen }
      { s with currentToolCall := some tc,
               toolInputJsonStringAccumulator := "" }
    | none => s
  else if chunk.type = "content_block_delta" ∧ deltaType chunk = some "input_json_delta"
      ∧ s.currentToolCall.isSome then
    match chunk.delta.bind (·.partial_json) with
    | some p =>
        if p ≠ "" then
          { s with toolInputJsonStringAccumulator := s.toolInputJsonStringAccumulator ++ p }
        else s
    | none => s
  else if chunk.type = "content_block_stop" ∧ s.currentToolCall.isSome then
    match s.currentToolCall with
    | some tc =>
      let args := (parse s.toolInputJsonStringAccumulator).getD emptyObj
      { s with pendingToolCall := some { tc with args := args },
               toolCallArgs := args,
               currentToolCall := none,
               toolInputJsonStringAccumulator := "" }
    | none => s
  else s

/-- State at the top of the stream loop: the new message and an empty
assistant placeholder have been appended, the accumulators are empty,
and the React tool-call states hold their previous values. -/
def initialStreamState (prevMessages : List Message) (newMessage : Message)
    (pending0 : Option ToolCall) (args0 : Json) : StreamState :=
  { assistantMessage := ""
  , messages := prevMessages ++ [newMessage, { role := "assistant", content := "" }]
  , currentToolCall := none
  , toolInputJsonStringAccumulator := ""
  , pendingToolCall := pending0
  , toolCallArgs := args0 }

/-- `manageConversation`: append the new message and the streaming
placeholder, then run the stream loop over the chunk sequence. -/
def manageConversation (tools : List Tool) (parse : String → Option Json)
    (prevMessages : List Message) (newMessage : Message)
    (pending0 : Option ToolCall) (args0 : Json)
    (chunks : List AnthropicStreamChunk) : StreamState :=
  chunks.foldl (processChunk tools parse prevMessages.length)
    (initialStreamState prevMessages newMessage pending0 args0)

/-- Component-level state read and written by the approval-gate handlers
of `LLMTab`: the ledger, the single pending slot, the editable argument
set, the gate error, and the running flag. -/
structure AppState where
  messages : List Message
  pendingToolCall : Option ToolCall
  toolCallArgs : Json
  toolCallError : Option String
  isToolCallLoading : Bool
  deriving Repr, DecidableEq

/-- `handleCancelToolCall`: clear the pending slot and the gate error. -/
def handleCancelToolCall (s : AppState) : AppState :=
  { s with pendingToolCall := none, toolCallError := none }

/-- The prefix of `handleApproveToolCall` that runs before
`await chatToolCall(...)` resolves: guard on a pending call, clear the
gate error, raise the running flag. -/
def handleApproveStart (s : AppState) : AppState :=
  match s.pendingToolCall with
  | none => s
  | some _ => { s with toolCallError := none, isToolCallLoading := true }

/-- The suffix of `handleApproveToolCall` that runs once
`chatToolCall` settles: on success clear the pending slot, on rejection
attach the error message; either way drop the running flag. -/
def handleApproveFinish (result : Except String Unit) (s : AppState) : AppState :=
  match result with
  | .ok _ => { s with pendingToolCall := none, isToolCallLoading := false }
  | .error e => { s with toolCallError := some e, isToolCallLoading := false }

/-- `handleApproveToolCall` with the execution collaborator's outcome
passed in as `result` (`.ok` when the promise resolves, `.error msg`
when it rejects). -/
def handleApproveToolCall (result : Except String Unit) (s : AppState) : AppState :=
  match s.pendingToolCall with
  | none => s
  | some _ => handleApproveFinish result (handleApproveStart s)

/-- `disabled={isToolCallLoading}` on the Cancel button of the tool-call
modal. -/
def cancelButtonDisabled (s : AppState) : Bool := s.isToolCallLoading

/-- One element of `chatToolResult.content`. -/
structure ResultContentPart where
  type : String
  text : Option String := none
  deriving Repr, DecidableEq

/-- `content.map((c) => c.type === "text" ? c.text : JSON.stringify(c)).join("\n")`;
`stringify` stands for `JSON.stringify`, and a `text` part with an absent
`text` field joins as the empty string. -/
def renderResultContent (stringify : ResultContentPart → String)
    (parts : List ResultContentPart) : String :=
  String.intercalate "\n"
    (parts.map fun c => if c.type = "text" then c.text.getD "" else stringify c)

/-- The tool-result message built by the `chatToolResult` effect. -/
def toolResultMessage (stringify : ResultContentPart → String)
    (parts : List ResultContentPart) : Message :=
  { role := "assistant", content := renderResultContent stringify parts,
    isToolResult := true }

/-- The `chatToolResult` effect: build the tool-result message and feed
it to `manageConversation`, whose follow-up stream is `chunks`. -/
def onChatToolResult (tools : List Tool) (parse : String → Option Json)
    (stringify : ResultContentPart → String) (parts : List ResultContentPart)
    (chunks : List AnthropicStreamChunk) (s : AppState) : AppState :=
  let st := manageConversation tools parse s.messages
    (toolResultMessage stringify parts) s.pendingToolCall s.toolCallArgs chunks
  { s with messages := st.messages, pendingToolCall := st.pendingToolCall,
           toolCallArgs := st.toolCallArgs }

/-- Number of tool-result turns in a ledger. -/
def countToolResults (ms : List Message) : Nat :=
  (ms.filter (·.isToolResult)).length

/-! ## The `useToolChecks` metadata validator (`useToolChecks.ts`) -/

/-- A character allowed by the name pattern `/^[a-z0-9_-]*$/i`. -/
def isNameChar (c : Char) : Bool :=
  c.isAlpha || c.isDigit || c = '_' || c = '-'

/-- Issues raised by `z.string().min(1).max(64).regex(...)` on the tool
name: every failing check contributes its own issue. -/
def toolNameIssues (name : String) : List String :=
  (if name.length < 1 then ["Tool name must not be empty"] else []) ++
  (if name.length > 64 then
    ["Tool name must be less than or equal to 64 characters long"] else []) ++
  (if ¬ name.data.all isNameChar then
    ["Tool name can only contains letter, numbers, underscore and hypens"] else [])

/-- Issues raised by `z.string({...}).max(1024)` on the tool description:
an absent description is an invalid-type issue with the custom message. -/
def toolDescriptionIssues (d : Option String) : List String :=
  match d with
  | none => ["You must specify a tool description for the LLM"]
  | some s =>
      if s.length > 1024 then
        ["Tool description must be less than or equal to 1024 characters long"]
      else []

/-- Issues raised by the annotations schema: the intersection with the
required `{ title }` object, then the read-only/destructive refinement.
The refinement only runs when the intersection did not abort, i.e. when
an annotations object with a (string) title is present; a failing
`min(1)` on the title is non-fatal, so the refinement still runs then. -/
def toolAnnotationsIssues (a : Option ToolAnnotations) : List String :=
  match a with
  | none => ["You must specify a tool annotations object"]
  | some ann =>
      match ann.title with
      | none => ["Tool human-readable title is missing"]
      | some t =>
          (if t.length < 1 then ["Tool annotation title must not be empty"] else []) ++
          (if ann.destructiveHint = some true ∧ ann.readOnlyHint = some true then
            ["Tool cannot be annotated read-only and destructive at the same time"]
          else [])

/-- `toolSchema.safeParse(tool).error?.issues ?? []`: all field issues,
collected across the three fields. -/
def toolIssues (t : Tool) : List String :=
  toolNameIssues t.name ++ toolDescriptionIssues t.description ++
    toolAnnotationsIssues t.annotations

/-- `CHECKS_QUANTITY` -/
def CHECKS_QUANTITY : Int := 9

/-- The record returned by `useToolChecks`.  Counts are JavaScript
numbers, embedded as `Int`. -/
structure ToolChecksResult where
  hasIssue : Bool
  successfull : Int
  failed : Int
  issues : List String
  deriving Repr, DecidableEq

/-- `useToolChecks({ tool })` -/
def useToolChecks (t : Tool) : ToolChecksResult :=
  let issues := toolIssues t
  { hasIssue := issues.length != 0
  , successfull := CHECKS_QUANTITY - issues.length
  , failed := issues.length
  , issues := issues }

/-! ## Abstract event shapes and fragment concatenation -/

/-- A `content_block_start` chunk opening a `tool_use` block. -/
def mkToolStart (name id : String) : AnthropicStreamChunk :=
  { type := "content_block_start", content_block := some ⟨"tool_use", name, id⟩ }

/-- A `content_block_delta` chunk carrying a `text_delta`. -/
def mkTextDelta (t : String) : AnthropicStreamChunk :=
  { type := "content_block_delta",
    delta := some { type := "text_delta", text := some t } }

/-- A `content_block_delta` chunk carrying an `input_json_delta` fragment. -/
def mkJsonDelta (frag : String) : AnthropicStreamChunk :=
  { type := "content_block_delta",
    delta := some { type := "input_json_delta", partial_json := some frag } }

/-- A `content_block_stop` chunk. -/
def mkStop : AnthropicStreamChunk := { type := "content_block_stop" }

/-- A complete tool-call event sequence:
start, argument fragments, stop. -/
def toolCallSeq (name id : String) (frags : List String) :
    List AnthropicStreamChunk :=
  mkToolStart name id :: (frags.map mkJsonDelta ++ [mkStop])

/-- Concatenation of a list of string fragments, in order. -/
def joinFrags : List String → String
  | [] => ""
  | f :: rest => f ++ joinFrags rest

/-- The text carried by a chunk, when it is a text delta. -/
def textOf (c : AnthropicStreamChunk) : Option String :=
  if c.type = "content_block_delta" ∧ deltaType c = some "text_delta" then
    some ((c.delta.bind (·.text)).getD "")
  else none

/-- Concatenation, in arrival order, of the text carried by all
text-delta chunks of a sequence. -/
def textConcat : List AnthropicStreamChunk → String
  | [] => ""
  | c :: rest => (textOf c).getD "" ++ textConcat rest

/-! ## Step lemmas for `processChunk` -/

theorem processChunk_toolStart (tools : List Tool) (parse : String → Option Json)
    (baseLen : Nat) (s : StreamState) (name id : String) :
    processChunk tools parse baseLen s (mkToolStart name id) =
      { s with
        currentToolCall := some ⟨name, id, emptyObj, findTool tools name, baseLen⟩,
        toolInputJsonStringAccumulator := "" } := by
  simp [processChunk, mkToolStart, deltaType, contentBlockType]

theorem processChunk_textDelta (tools : List Tool) (parse : String → Option Json)
    (baseLen : Nat) (s : StreamState) (t : String) :
    processChunk tools parse baseLen s (mkTextDelta t) =
      { s with
        assistantMessage := s.assistantMessage ++ t,
        messages := replaceLast s.messages
          ⟨"assistant", s.assistantMessage ++ t, false⟩ } := by
  simp [processChunk, mkTextDelta, deltaType, contentBlockType]

theorem processChunk_jsonDelta (tools : List Tool) (parse : String → Option Json)
    (baseLen : Nat) (s : StreamState) (p : String)
    (h : s.currentToolCall.isSome) :
    processChunk tools parse baseLen s (mkJsonDelta p) =
      { s with toolInputJsonStringAccumulator :=
          s.toolInputJsonStringAccumulator ++ p } := by
  by_cases hp : p = ""
  · subst hp
    simp [processChunk, mkJsonDelta, deltaType, contentBlockType, h,
      String.append_empty]
  · simp [processChunk, mkJsonDelta, deltaType, contentBlockType, h, hp]

theorem processChunk_stop (tools : List Tool) (parse : String → Option Json)
    (baseLen : Nat) (s : StreamState) (tc : ToolCall)
    (h : s.currentToolCall = some tc) :
    processChunk tools parse baseLen s mkStop =
      { s with
        pendingToolCall := some
          { tc with args := (parse s.toolInputJsonStringAccumulator).getD emptyObj },
        toolCallArgs := (parse s.toolInputJsonStringAccumulator).getD emptyObj,
        currentToolCall := none,
        toolInputJsonStringAccumulator := "" } := by
  simp [processChunk, mkStop, deltaType, contentBlockType, h]

theorem foldl_jsonDeltas (tools : List Tool) (parse : String → Option Json)
    (baseLen : Nat) :
    ∀ (frags : List String) (s : StreamState), s.currentToolCall.isSome →
      (frags.map mkJsonDelta).foldl (processChunk tools parse baseLen) s =
        { s with toolInputJsonStringAccumulator :=
            s.toolInputJsonStringAccumulator ++ joinFrags frags }
  | [], s, _ => by simp [joinFrags, String.append_empty]
  | f :: rest, s, h => by
      rw [List.map_cons, List.foldl_cons, processChunk_jsonDelta tools parse baseLen s f h,
        foldl_jsonDeltas tools parse baseLen rest
          ({ s with toolInputJsonStringAccumulator :=
              s.toolInputJsonStringAccumulator ++ f }) (by simpa using h)]
      simp [joinFrags, String.append_assoc]

/-- Running a complete tool-call sequence from any loop state: the
reconstructed call is submitted (pending slot set), the parsed-or-empty
arguments are installed, and the in-flight call state is cleared. -/
theorem foldl_toolCallSeq (tools : List Tool) (parse : String → Option Json)
    (baseLen : Nat) (name id : String) (frags : List String) (s : StreamState) :
    (toolCallSeq name id frags).foldl (processChunk tools parse baseLen) s =
      { s with
        currentToolCall := none,
        toolInputJsonStringAccumulator := "",
        pendingToolCall := some ⟨name, id, (parse (joinFrags frags)).getD emptyObj,
          findTool tools name, baseLen⟩,
        toolCallArgs := (parse (joinFrags frags)).getD emptyObj } := by
  rw [toolCallSeq, List.foldl_cons, processChunk_toolStart, List.foldl_append,
    foldl_jsonDeltas tools parse baseLen frags _ (by simp), List.foldl_cons,
    List.foldl_nil, processChunk_stop tools parse baseLen _
      ⟨name, id, emptyObj, findTool tools name, baseLen⟩ (by simp)]
  simp [String.empty_append]

/-- Running an opened-but-unterminated tool-call sequence: the pending
slot, the ledger and the assistant text are untouched; the call stays
in the in-flight slot with the buffer collected so far. -/
theorem foldl_openCall (tools : List Tool) (parse : String → Option Json)
    (baseLen : Nat) (name id : String) (frags : List String) (s : StreamState) :
    (mkToolStart name id :: frags.map mkJsonDelta).foldl
        (processChunk tools parse baseLen) s =
      { s with
        currentToolCall := some ⟨name, id, emptyObj, findTool tools name, baseLen⟩,
        toolInputJsonStringAccumulator := joinFrags frags } := by
  rw [List.foldl_cons, processChunk_toolStart,
    foldl_jsonDeltas tools parse baseLen frags _ (by simp)]
  simp [String.empty_append]

/-- Any chunk that is not a text delta leaves the assistant text and the
ledger untouched: all other branches only write the tool-call fields. -/
theorem processChunk_text_frame (tools : List Tool) (parse : String → Option Json)
    (baseLen : Nat) (s : StreamState) (c : AnthropicStreamChunk)
    (h : ¬ (c.type = "content_block_delta" ∧ deltaType c = some "text_delta")) :
    (processChunk tools parse baseLen s c).assistantMessage = s.assistantMessage ∧
      (processChunk tools parse baseLen s c).messages = s.messages := by
  unfold processChunk
  rw [if_neg h]
  split_ifs with h2 h3 h4
  · cases c.content_block <;> simp
  · rcases c.delta.bind (·.partial_json) with _ | p <;> simp
    split_ifs <;> simp
  · cases hc : s.currentToolCall <;> simp
  · simp

/-- The text carried by a chunk that is not a text delta is `none`. -/
theorem textOf_eq_none (c : AnthropicStreamChunk)
    (h : ¬ (c.type = "content_block_delta" ∧ deltaType c = some "text_delta")) :
    textOf c = none := by
  simp [textOf, h]

/-- A text-delta chunk appends its text to the assistant message and
replaces the last ledger entry with the updated assistant turn. -/
theorem processChunk_text_update (tools : List Tool) (parse : String → Option Json)
    (baseLen : Nat) (s : StreamState) (c : AnthropicStreamChunk)
    (h : c.type = "content_block_delta" ∧ deltaType c = some "text_delta") :
    processChunk tools parse baseLen s c =
      { s with
        assistantMessage := s.assistantMessage ++ ((c.delta.bind (·.text)).getD ""),
        messages := replaceLast s.messages
          ⟨"assistant", s.assistantMessage ++ ((c.delta.bind (·.text)).getD ""), false⟩ } := by
  unfold processChunk
  rw [if_pos h]

theorem replaceLast_concat (xs : List Message) (x m : Message) :
    replaceLast (xs ++ [x]) m = xs ++ [m] := by
  cases xs with
  | nil => rfl
  | cons a t =>
      have h1 : a :: (t ++ [x]) = (a :: t) ++ [x] := rfl
      show (a :: (t ++ [x])).dropLast ++ [m] = a :: (t ++ [m])
      rw [h1, ← List.concat_eq_append, List.dropLast_concat]
      simp

/-- Invariant of the stream loop: when the ledger ends with an assistant
turn mirroring the accumulated assistant text, after any chunk sequence
the assistant text has grown by exactly the concatenated text deltas,
and the ledger still ends with that assistant turn. -/
theorem foldl_text_invariant (tools : List Tool) (parse : String → Option Json)
    (baseLen : Nat) :
    ∀ (chunks : List AnthropicStreamChunk) (base : List Message) (s : StreamState),
      s.messages = base ++ [⟨"assistant", s.assistantMessage, false⟩] →
      (chunks.foldl (processChunk tools parse baseLen) s).assistantMessage
          = s.assistantMessage ++ textConcat chunks ∧
        (chunks.foldl (processChunk tools parse baseLen) s).messages
          = base ++ [⟨"assistant", s.assistantMessage ++ textConcat chunks, false⟩]
  | [], base, s, hs => by
      simp [textConcat, String.append_empty, hs]
  | c :: rest, base, s, hs => by
      rw [List.foldl_cons]
      by_cases h : c.type = "content_block_delta" ∧ deltaType c = some "text_delta"
      · rw [processChunk_text_update tools parse baseLen s c h]
        have hinv :
            ({ s with
              assistantMessage := s.assistantMessage ++ ((c.delta.bind (·.text)).getD ""),
              messages := replaceLast s.messages
                ⟨"assistant", s.assistantMessage ++ ((c.delta.bind (·.text)).getD ""), false⟩ }
              : StreamState).messages
              = base ++ [⟨"assistant",
                  s.assistantMessage ++ ((c.delta.bind (·.text)).getD ""), false⟩] := by
          simp only [hs, replaceLast_concat]
        have ih := foldl_text_invariant tools parse baseLen rest base _ hinv
        rcases ih with ⟨ih1, ih2⟩
        refine ⟨?_, ?_⟩
        · rw [ih1]
          simp [textConcat, textOf, h, String.append_assoc]
        · rw [ih2]
          simp [textConcat, textOf, h, String.append_assoc]
      · obtain ⟨hAm, hMs⟩ := processChunk_text_frame tools parse baseLen s c h
        have hinv : (processChunk tools parse baseLen s c).messages
            = base ++ [⟨"assistant",
                (processChunk tools parse baseLen s c).assistantMessage, false⟩] := by
          rw [hAm, hMs, hs]
        have ih := foldl_text_invariant tools parse baseLen rest base _ hinv
        rcases ih with ⟨ih1, ih2⟩
        rw [hAm] at ih1 ih2
        refine ⟨?_, ?_⟩
        · rw [ih1]
          simp [textConcat, textOf_eq_none c h]
        · rw [ih2]
          simp [textConcat, textOf_eq_none c h]

/-- The ledger produced by `manageConversation`: the previous transcript,
the appended message, then the streamed assistant turn whose content is
exactly the concatenated text deltas. -/
theorem manageConversation_messages (tools : List Tool) (parse : String → Option Json)
    (prev : List Message) (newMessage : Message) (pending0 : Option ToolCall)
    (args0 : Json) (chunks : List AnthropicStreamChunk) :
    (manageConversation tools parse prev newMessage pending0 args0 chunks).messages
        = prev ++ [newMessage, ⟨"assistant", textConcat chunks, false⟩] ∧
      (manageConversation tools parse prev newMessage pending0 args0
          chunks).assistantMessage = textConcat chunks := by
  have hinv : (initialStreamState prev newMessage pending0 args0).messages
      = (prev ++ [newMessage]) ++
        [⟨"assistant", (initialStreamState prev newMessage pending0 args0).assistantMessage,
          false⟩] := by
    simp [initialStreamState]
  obtain ⟨h1, h2⟩ := foldl_text_invariant tools parse prev.length chunks
    (prev ++ [newMessage]) _ hinv
  refine ⟨?_, ?_⟩
  · rw [manageConversation, h2]
    simp [initialStreamState, String.empty_append]
  · rw [manageConversation, h1]
    simp [initialStreamState, String.empty_append]

/-! ## Concrete sample inputs used by witnesses and counterexamples -/

/-- A catalog with one tool. -/
def sampleTool : Tool := { name := "get_weather", description := some "Get the weather" }

/-- A reconstructed call against `sampleTool`. -/
def sampleCall : ToolCall := ⟨"get_weather", "1", emptyObj, some sampleTool, 0⟩

/-- A component state with one outstanding pending call. -/
def sampleApp : AppState :=
  { messages := [⟨"user", "hi", false⟩]
  , pendingToolCall := some sampleCall
  , toolCallArgs := emptyObj
  , toolCallError := none
  , isToolCallLoading := false }

/-- A loop state as it stands right before the first chunk arrives. -/
def sampleStream : StreamState :=
  { assistantMessage := ""
  , messages := [⟨"user", "hi", false⟩, ⟨"assistant", "", false⟩]
  , currentToolCall := none
  , toolInputJsonStringAccumulator := ""
  , pendingToolCall := none
  , toolCallArgs := emptyObj }

/-- Stand-in for `JSON.parse` at concrete inputs: recognizes the one
payload the scenarios use and rejects everything else. -/
def parseStub (s : String) : Option Json :=
  if s = "\x7b\"location\":\"Tokyo\"\x7d" then
    some (Json.obj [("location", Json.str "Tokyo")])
  else none

/-- Stand-in for `JSON.stringify` at concrete inputs. -/
def stringifyStub : ResultContentPart → String := fun _ => "stringified"

/-! ## Claim theorems -/

/-- C1: for every complete tool-call event sequence (a `content_block_start`
of type `tool_use`, any number of `input_json_delta` fragments, then
`content_block_stop`), the pending slot is set — the call is submitted to
the approval gate, never dropped — and its arguments are the parsed value
of the concatenated fragments when `parse` succeeds, and the empty object
otherwise (`Option.getD` folds both cases into one equation). -/
theorem toolCall_reconstruction_submitted (tools : List Tool)
    (parse : String → Option Json) (baseLen : Nat) (s : StreamState)
    (name id : String) (frags : List String) :
    ((toolCallSeq name id frags).foldl (processChunk tools parse baseLen)
        s).pendingToolCall
        = some ⟨name, id, (parse (joinFrags frags)).getD emptyObj,
            findTool tools name, baseLen⟩ ∧
      ((toolCallSeq name id frags).foldl (processChunk tools parse baseLen)
          s).toolCallArgs
        = (parse (joinFrags frags)).getD emptyObj := by
  rw [foldl_toolCallSeq]
  exact ⟨rfl, rfl⟩

/-- C2: the final assistant message — both the accumulator and the turn
the ledger holds — equals the concatenation, in arrival order, of the
text carried by all `text_delta` chunks; `input_json_delta` fragments
never appear in it, since `textConcat` collects text deltas only. -/
theorem assistantText_eq_textDeltas (tools : List Tool)
    (parse : String → Option Json) (prev : List Message) (newMessage : Message)
    (pending0 : Option ToolCall) (args0 : Json)
    (chunks : List AnthropicStreamChunk) :
    (manageConversation tools parse prev newMessage pending0 args0
        chunks).assistantMessage = textConcat chunks ∧
      (manageConversation tools parse prev newMessage pending0 args0
          chunks).messages
        = prev ++ [newMessage, ⟨"assistant", textConcat chunks, false⟩] := by
  obtain ⟨h1, h2⟩ :=
    manageConversation_messages tools parse prev newMessage pending0 args0 chunks
  exact ⟨h2, h1⟩

/-- C3: the gate is a single `Option`-typed slot, so at most one pending
call exists; submitting a second complete call overwrites the first
(last-writer-wins), and re-running the same complete call sequence leaves
the whole observable state unchanged. -/
theorem pending_slot_last_writer_wins (tools : List Tool)
    (parse : String → Option Json) (baseLen : Nat) (s : StreamState)
    (n1 i1 : String) (f1 : List String) (n2 i2 : String) (f2 : List String) :
    ((toolCallSeq n1 i1 f1 ++ toolCallSeq n2 i2 f2).foldl
        (processChunk tools parse baseLen) s).pendingToolCall
        = some ⟨n2, i2, (parse (joinFrags f2)).getD emptyObj,
            findTool tools n2, baseLen⟩ ∧
      (toolCallSeq n1 i1 f1 ++ toolCallSeq n1 i1 f1).foldl
          (processChunk tools parse baseLen) s
        = (toolCallSeq n1 i1 f1).foldl (processChunk tools parse baseLen) s := by
  constructor
  · rw [List.foldl_append, foldl_toolCallSeq, foldl_toolCallSeq]
  · rw [List.foldl_append, foldl_toolCallSeq, foldl_toolCallSeq]

/-- C4 counterexample: a stream that ends while a tool call is open (no
`content_block_stop`) does NOT submit the open call — the pending slot
stays empty — although the same chunks followed by the terminating event
would submit it (the buffer even parses). -/
theorem openCall_dropped_cex :
    (manageConversation [] parseStub [] ⟨"user", "hi", false⟩ none emptyObj
        [mkToolStart "get_weather" "1",
          mkJsonDelta "\x7b\"location\":\"Tokyo\"\x7d"]).pendingToolCall = none ∧
      (manageConversation [] parseStub [] ⟨"user", "hi", false⟩ none emptyObj
          [mkToolStart "get_weather" "1",
            mkJsonDelta "\x7b\"location\":\"Tokyo\"\x7d", mkStop]).pendingToolCall
        ≠ none := by
  decide

/-- C4 amended: when the source is exhausted while a tool call is open,
the open call is discarded, not finalized: the pending slot keeps its
previous value, and the call never reaches the approval gate; the call
record and its buffer merely remain in the loop-local state. -/
theorem openCall_discarded (tools : List Tool) (parse : String → Option Json)
    (baseLen : Nat) (name id : String) (frags : List String) (s : StreamState) :
    ((mkToolStart name id :: frags.map mkJsonDelta).foldl
        (processChunk tools parse baseLen) s).pendingToolCall
        = s.pendingToolCall ∧
      ((mkToolStart name id :: frags.map mkJsonDelta).foldl
          (processChunk tools parse baseLen) s).currentToolCall
        = some ⟨name, id, emptyObj, findTool tools name, baseLen⟩ ∧
      ((mkToolStart name id :: frags.map mkJsonDelta).foldl
          (processChunk tools parse baseLen) s).toolInputJsonStringAccumulator
        = joinFrags frags := by
  rw [foldl_openCall]
  exact ⟨rfl, rfl, rfl⟩

/-- The whole approve handler when the call succeeds: pending slot
cleared, error cleared, running flag dropped, nothing else touched. -/
theorem handleApproveToolCall_ok (s : AppState) (tc : ToolCall)
    (h : s.pendingToolCall = some tc) :
    handleApproveToolCall (.ok ()) s =
      { s with pendingToolCall := none, toolCallError := none,
               isToolCallLoading := false } := by
  simp [handleApproveToolCall, handleApproveStart, handleApproveFinish, h]

/-- The whole approve handler when the collaborator rejects: the error
message is attached, the running flag dropped, the pending slot kept. -/
theorem handleApproveToolCall_error (s : AppState) (tc : ToolCall) (msg : String)
    (h : s.pendingToolCall = some tc) :
    handleApproveToolCall (.error msg) s =
      { s with toolCallError := some msg, isToolCallLoading := false } := by
  simp [handleApproveToolCall, handleApproveStart, handleApproveFinish, h]

/-- Filtering distributes over an appended two-element suffix. -/
theorem countToolResults_append_two (ms : List Message) (a b : Message) :
    countToolResults (ms ++ [a, b]) = countToolResults ms
      + (if a.isToolResult then 1 else 0) + (if b.isToolResult then 1 else 0) := by
  simp only [countToolResults, List.filter_append, List.length_append]
  cases ha : a.isToolResult <;> cases hb : b.isToolResult <;>
    simp [List.filter, ha, hb]

/-- C5: rejecting a pending call never mutates the ledger — it only
clears the pending slot and the gate error — and approving a call whose
execution succeeds appends, via the tool-result effect, exactly one
tool-result turn to the ledger. -/
theorem reject_frame_approve_appends_one (tools : List Tool)
    (parse : String → Option Json) (stringify : ResultContentPart → String)
    (parts : List ResultContentPart) (chunks : List AnthropicStreamChunk)
    (s : AppState) (tc : ToolCall) (h : s.pendingToolCall = some tc) :
    (handleCancelToolCall s).messages = s.messages ∧
      (handleCancelToolCall s).pendingToolCall = none ∧
      (handleCancelToolCall s).toolCallError = none ∧
      (handleCancelToolCall s).toolCallArgs = s.toolCallArgs ∧
      (handleCancelToolCall s).isToolCallLoading = s.isToolCallLoading ∧
      countToolResults ((onChatToolResult tools parse stringify parts chunks
          (handleApproveToolCall (.ok ()) s)).messages)
        = countToolResults s.messages + 1 := by
  refine ⟨rfl, rfl, rfl, rfl, rfl, ?_⟩
  have key := (manageConversation_messages tools parse s.messages
    (toolResultMessage stringify parts) none s.toolCallArgs chunks).1
  rw [handleApproveToolCall_ok s tc h]
  simp only [onChatToolResult, key, countToolResults_append_two]
  simp [toolResultMessage]

/-- C5 witness: concrete instance of the reject frame and of the
exactly-one-appended-tool-result fact. -/
theorem reject_frame_approve_appends_one_witness :
    (handleCancelToolCall sampleApp).messages = sampleApp.messages ∧
      countToolResults ((onChatToolResult [] parseStub stringifyStub [] []
          (handleApproveToolCall (.ok ()) sampleApp)).messages)
        = countToolResults sampleApp.messages + 1 :=
  ⟨(reject_frame_approve_appends_one [] parseStub stringifyStub [] []
      sampleApp sampleCall rfl).1,
    (reject_frame_approve_appends_one [] parseStub stringifyStub [] []
      sampleApp sampleCall rfl).2.2.2.2.2⟩

/-- C6: when the execution collaborator rejects, the error message is
attached to the gate state, the pending call is preserved for retry, and
the ledger is untouched; when it resolves, the pending call is cleared. -/
theorem executionFailure_preserves_pending (s : AppState) (tc : ToolCall)
    (msg : String) (h : s.pendingToolCall = some tc) :
    (handleApproveToolCall (.error msg) s).toolCallError = some msg ∧
      (handleApproveToolCall (.error msg) s).pendingToolCall = some tc ∧
      (handleApproveToolCall (.error msg) s).messages = s.messages ∧
      (handleApproveToolCall (.ok ()) s).pendingToolCall = none := by
  rw [handleApproveToolCall_error s tc msg h, handleApproveToolCall_ok s tc h]
  exact ⟨rfl, h, rfl, rfl⟩

/-- C6 witness: concrete instance at `sampleApp`. -/
theorem executionFailure_preserves_pending_witness :
    (handleApproveToolCall (.error "boom") sampleApp).pendingToolCall
        = some sampleCall ∧
      (handleApproveToolCall (.ok ()) sampleApp).pendingToolCall = none :=
  ⟨(executionFailure_preserves_pending sampleApp sampleCall "boom" rfl).2.1,
    (executionFailure_preserves_pending sampleApp sampleCall "boom" rfl).2.2.2⟩

/-- C7 counterexample: in the in-flight window (after `handleApproveToolCall`
has started, before `chatToolCall` settles) the pending call is still
set — it was not consumed by approve — and invoking the reject handler
there is not ignored: it changes the state (clears the pending slot). -/
theorem inflight_reject_cex :
    (handleApproveStart sampleApp).pendingToolCall ≠ none ∧
      handleCancelToolCall (handleApproveStart sampleApp)
        ≠ handleApproveStart sampleApp := by
  decide

/-- C7 amended: while an approved call's execution is in flight the gate
reports a running status and the pending call remains set (it is consumed
only when execution succeeds); a reject during that window is prevented
by the disabled Cancel control, not by the absence of a pending call. -/
theorem inflight_running_pending_preserved (s : AppState) (tc : ToolCall)
    (h : s.pendingToolCall = some tc) :
    (handleApproveStart s).isToolCallLoading = true ∧
      (handleApproveStart s).pendingToolCall = some tc ∧
      cancelButtonDisabled (handleApproveStart s) = true ∧
      (handleApproveFinish (.ok ()) (handleApproveStart s)).pendingToolCall
        = none := by
  have hs : handleApproveStart s =
      { s with toolCallError := none, isToolCallLoading := true } := by
    simp [handleApproveStart, h]
  rw [hs]
  exact ⟨rfl, h, rfl, rfl⟩

/-- C7 amended witness: concrete instance at `sampleApp`. -/
theorem inflight_running_pending_preserved_witness :
    (handleApproveStart sampleApp).isToolCallLoading = true ∧
      (handleApproveStart sampleApp).pendingToolCall = some sampleCall :=
  ⟨(inflight_running_pending_preserved sampleApp sampleCall rfl).1,
    (inflight_running_pending_preserved sampleApp sampleCall rfl).2.1⟩

/-- C8: a reconstructed call resolves its tool by catalog lookup: the
submitted pending call carries exactly `findTool tools name`; when no
catalog entry bears the name the resolved tool is `null` and the call is
still surfaced (the pending slot is set, nothing fails); when some entry
bears the name, the resolved tool is a catalog entry with that name. -/
theorem unknownTool_resolved_null_surfaced (tools : List Tool)
    (parse : String → Option Json) (baseLen : Nat) (s : StreamState)
    (name id : String) (frags : List String) :
    ((toolCallSeq name id frags).foldl (processChunk tools parse baseLen)
          s).pendingToolCall.map (·.tool)
        = some (findTool tools name) ∧
      ((∀ t ∈ tools, t.name ≠ name) → findTool tools name = none) ∧
      (∀ t, findTool tools name = some t → t ∈ tools ∧ t.name = name) := by
  refine ⟨?_, ?_, ?_⟩
  · rw [foldl_toolCallSeq]
    rfl
  · intro h
    rw [findTool, List.find?_eq_none]
    intro t ht
    simpa using h t ht
  · intro t ht
    refine ⟨List.mem_of_find?_eq_some ht, ?_⟩
    simpa using List.find?_some ht

/-- C8 witness: a name absent from a one-tool catalog resolves to `null`
while the call is still surfaced. -/
theorem unknownTool_resolved_null_surfaced_witness :
    ((toolCallSeq "nope" "1" []).foldl (processChunk [sampleTool] parseStub 0)
        sampleStream).pendingToolCall.map (·.tool) = some none := by
  have h := unknownTool_resolved_null_surfaced [sampleTool] parseStub 0
    sampleStream "nope" "1" []
  have h2 := h.2.1 (by decide)
  rw [h.1, h2]

/-- C9: a chunk matching none of the four recognized event shapes leaves
the whole accumulator state unchanged instead of failing the stream. -/
theorem unrecognized_chunk_noop (tools : List Tool)
    (parse : String → Option Json) (baseLen : Nat) (s : StreamState)
    (c : AnthropicStreamChunk)
    (h1 : ¬ (c.type = "content_block_delta" ∧ deltaType c = some "text_delta"))
    (h2 : ¬ (c.type = "content_block_start" ∧ contentBlockType c = some "tool_use"))
    (h3 : ¬ (c.type = "content_block_delta" ∧ deltaType c = some "input_json_delta"))
    (h4 : c.type ≠ "content_block_stop") :
    processChunk tools parse baseLen s c = s := by
  unfold processChunk
  rw [if_neg h1, if_neg h2,
    if_neg (by rintro ⟨a, b, _⟩; exact h3 ⟨a, b⟩),
    if_neg (by rintro ⟨a, _⟩; exact h4 a)]

/-- C9 witness: a `message_start` auxiliary chunk is a no-op. -/
theorem unrecognized_chunk_noop_witness :
    processChunk [sampleTool] parseStub 0 sampleStream ⟨"message_start", none, none⟩
      = sampleStream :=
  unrecognized_chunk_noop [sampleTool] parseStub 0 sampleStream
    ⟨"message_start", none, none⟩ (by decide) (by decide) (by decide) (by decide)

/-- C10: the checks hook reports `failed` equal to the number of
validation issues, `successfull` equal to nine minus that number (so the
two always sum to nine), and `hasIssue` exactly when at least one issue
exists; a tool annotated both read-only and destructive always has an
issue — either the refinement fires, or a missing title already failed. -/
theorem useToolChecks_counts (t : Tool) :
    (useToolChecks t).failed = ((toolIssues t).length : Int) ∧
      (useToolChecks t).successfull = 9 - ((toolIssues t).length : Int) ∧
      (useToolChecks t).successfull + (useToolChecks t).failed = 9 ∧
      ((useToolChecks t).hasIssue = true ↔ (toolIssues t).length ≠ 0) ∧
      (∀ ann, t.annotations = some ann → ann.readOnlyHint = some true →
        ann.destructiveHint = some true → (useToolChecks t).hasIssue = true) := by
  refine ⟨rfl, rfl, by simp [useToolChecks, CHECKS_QUANTITY], ?_, ?_⟩
  · simp [useToolChecks]
  · intro ann hann hro hd
    have hne : toolAnnotationsIssues t.annotations ≠ [] := by
      rw [hann, toolAnnotationsIssues]
      cases htitle : ann.title with
      | none => simp
      | some ttl =>
          have : (ann.destructiveHint = some true ∧ ann.readOnlyHint = some true) := ⟨hd, hro⟩
          simp [this]
    have hlen : (toolIssues t).length ≠ 0 := by
      rw [toolIssues]
      simp only [List.length_append, ne_eq]
      intro hz
      apply hne
      have := Nat.eq_zero_of_add_eq_zero_left hz
      exact List.eq_nil_of_length_eq_zero this
    simp [useToolChecks, hlen]

/-- C10 witness: a read-only-and-destructive tool has an issue. -/
theorem useToolChecks_counts_witness :
    (useToolChecks ⟨"t", some "d", some ⟨some "T", some true, some true⟩⟩).hasIssue
      = true :=
  (useToolChecks_counts ⟨"t", some "d", some ⟨some "T", some true, some true⟩⟩).2.2.2.2
    ⟨some "T", some true, some true⟩ rfl rfl rfl

end Grizzly
